import Mathlib

/-!
Verification development for the local-docker model server runner
(`local_docker_runner.py`): servable path parsing, the status polling
loop of WaitUntilRunning, and the Start/GetEndpoint/Stop lifecycle
state machine.

Strings are modelled as lists of characters where path manipulation is
involved (mirroring posixpath.split and posixpath.join), and as Lean
strings for container statuses and endpoints.  Machine floats used as
timestamps are modelled as rationals; time advances only during the
sleeps of the polling loop.
-/

namespace LocalDocker

/-- Boolean test for a slash character, used by the path-splitting code. -/
def isSlash (c : Char) : Bool := c = '/'

/-- Boolean test for a non-slash character. -/
def notSlash (c : Char) : Bool := c ≠ '/'

/-- Model of posixpath.split as used by os.path.split in the source:
split a path at the final slash into (head, tail); the head keeps no
trailing slashes unless it consists only of slashes. -/
def osPathSplit (p : List Char) : List Char × List Char :=
  let rev := p.reverse
  let tailRev := rev.takeWhile notSlash
  let headRev := rev.dropWhile notSlash
  let head :=
    if !headRev.isEmpty && !(headRev.all isSlash) then
      (headRev.dropWhile isSlash).reverse
    else
      headRev.reverse
  (head, tailRev.reverse)

/-- Model of one step of posixpath.join, the loop body of os.path.join:
an absolute component replaces the path, otherwise the component is
appended with a separating slash unless one is already present. -/
def joinOne (path b : List Char) : List Char :=
  if b.head? = some '/' then b
  else if path = [] ∨ path.getLast? = some '/' then path ++ b
  else path ++ '/' :: b

/-- Model of os.path.join on two components. -/
def osPathJoin (a b : List Char) : List Char := joinOne a b

/-- Model of os.path.join on three components. -/
def osPathJoin3 (a b c : List Char) : List Char := joinOne (joinOne a b) c

/-- Boolean test for an ASCII decimal digit. -/
def isAsciiDigit (c : Char) : Bool := '0' ≤ c && c ≤ '9'

/-- Model of the str.isdigit check of the source: true exactly when the
string is nonempty and consists of decimal digits. -/
def isdigit (s : List Char) : Bool := !s.isEmpty && s.all isAsciiDigit

/-- Model of int() applied to a digit string: fold the decimal digits
into a natural number. -/
def pyInt (s : List Char) : Nat :=
  s.foldl (fun a c => a * 10 + (c.toNat - 48)) 0

/-- Fuel-driven core of decimal rendering: emit the digits of n (most
significant first) in front of the accumulator. -/
def natToDecimalCore : Nat → Nat → List Char → List Char
  | 0, _, acc => acc
  | fuel + 1, n, acc =>
    let acc' := Char.ofNat (48 + n % 10) :: acc
    if n < 10 then acc' else natToDecimalCore fuel (n / 10) acc'

/-- Model of str() applied to a natural number: its decimal rendering
without leading zeros. -/
def natToDecimal (n : Nat) : List Char := natToDecimalCore (n + 1) n []

/-- Error raised by path resolution; the source raises ValueError at
this site and the specification names the condition InvalidServingPath. -/
inductive ServingPathError
  | invalidServingPath
deriving DecidableEq

/-- Resolved servable path components: base path, model name, integer
version. -/
structure ModelPathParts where
  basePath : List Char
  modelName : List Char
  version : Nat
deriving DecidableEq

/-- Model of _parse_model_path: split off the last segment, require it
to be all digits (the version), split the remainder into base path and
model name. -/
def parse_model_path (modelPath : List Char) : Except ServingPathError ModelPathParts :=
  let s1 := osPathSplit modelPath
  if isdigit s1.2 then
    let s2 := osPathSplit s1.1
    Except.ok ⟨s2.1, s2.2, pyInt s1.2⟩
  else
    Except.error ServingPathError.invalidServingPath

/-- Fixed polling interval of the wait loop, the module constant
_POLLING_INTERVAL_SEC = 1 (in seconds). -/
def pollingIntervalSec : Rat := 1

/-- One scripted response of the container engine to a status refresh:
either a NotFound error raised during reload, or the reported status
string. -/
inductive PollResponse
  | notFound
  | status (s : String)
deriving DecidableEq

/-- Terminal outcome of WaitUntilRunning: normal return, a JobAborted
raise, a DeadlineExceeded raise, or the failure of the entry assertion
that a container is held. -/
inductive WaitOutcome
  | success
  | jobAborted
  | deadlineExceeded
  | assertionFailed
deriving DecidableEq

/-- Observable trace of one WaitUntilRunning call: its outcome, the
number of status refreshes performed, and the number of sleeps taken. -/
structure WaitTrace where
  outcome : WaitOutcome
  refreshes : Nat
  sleeps : Nat
deriving DecidableEq

/-- The polling loop of WaitUntilRunning, run against a scripted list of
engine responses; now is the current timestamp and each sleep advances
it by the fixed polling interval.  Returns none when the script is
exhausted while the loop would still poll. -/
def waitLoopGo (deadline : Rat) : List PollResponse → Rat → Option WaitTrace
  | [], now =>
    if now < deadline then none
    else some ⟨WaitOutcome.deadlineExceeded, 0, 0⟩
  | r :: rest, now =>
    if now < deadline then
      match r with
      | PollResponse.notFound => some ⟨WaitOutcome.jobAborted, 1, 0⟩
      | PollResponse.status s =>
        if s = "created" then
          (waitLoopGo deadline rest (now + pollingIntervalSec)).map
            (fun t => ⟨t.outcome, t.refreshes + 1, t.sleeps + 1⟩)
        else if s = "running" then
          some ⟨WaitOutcome.success, 1, 0⟩
        else
          some ⟨WaitOutcome.jobAborted, 1, 0⟩
    else
      some ⟨WaitOutcome.deadlineExceeded, 0, 0⟩

/-- The polling loop started at the current timestamp. -/
def waitLoop (deadline now : Rat) (script : List PollResponse) : Option WaitTrace :=
  waitLoopGo deadline script now

/-- Classification of an engine response that makes the loop raise
JobAborted at that poll: a NotFound raise, or a status other than
created and running. -/
def isAbortResponse : PollResponse → Bool
  | PollResponse.notFound => true
  | PollResponse.status s => !(s = "created" : Bool) && !(s = "running" : Bool)

/-- Opaque container handle returned by the engine run request. -/
structure ContainerHandle where
  id : Nat
deriving DecidableEq

/-- Mutable state of a LocalDockerRunner instance: the container handle,
the endpoint string, and whether the docker client connection has been
released by close(). -/
structure RunnerState where
  container : Option ContainerHandle
  endpoint : Option String
  dockerClosed : Bool
deriving DecidableEq

/-- State of a freshly constructed runner: no container, no endpoint,
client connection open. -/
def initialRunnerState : RunnerState := ⟨none, none, false⟩

/-- Immutable model-location fields resolved at construction. -/
structure RunnerConfig where
  modelBasePath : List Char
  modelName : List Char
  modelVersion : Nat

/-- The _model_path property: base path joined with the model name. -/
def modelPath (cfg : RunnerConfig) : List Char :=
  osPathJoin cfg.modelBasePath cfg.modelName

/-- The _model_version_path property: base path, model name and version
joined. -/
def modelVersionPath (cfg : RunnerConfig) : List Char :=
  osPathJoin3 cfg.modelBasePath cfg.modelName (natToDecimal cfg.modelVersion)

/-- Run parameters handed to the engine run request: either the fully
versioned local model directory is mounted, or only the base path is
passed for auto-discovery. -/
inductive DockerRunParams
  | withHostModelPath (hostPort : Nat) (hostModelPath : List Char)
  | withModelBasePath (hostPort : Nat) (modelBasePath : List Char)
deriving DecidableEq

/-- Errors a lifecycle operation can raise: a failed assert, the
NotImplementedError for unsupported binary kinds, or an engine-level
docker error propagated from run or stop. -/
inductive PyError
  | assertionError (msg : String)
  | notImplementedError
  | dockerError
deriving DecidableEq

/-- Environment supplied by the outside world to one lifecycle step: the
free host port found, the binary-kind checks, the outcome of the engine
run request, and whether the engine stop request raises. -/
structure DockerEnv where
  availablePort : Nat
  isTensorFlowServing : Bool
  localModelExists : Bool
  runResult : DockerRunParams → Except Unit ContainerHandle
  stopRaises : Bool

/-- Assertion message of GetEndpoint. -/
def endpointAssertMsg : String :=
  "Endpoint is not yet created. You should call Start() first."

/-- Assertion message of Start. -/
def startAssertMsg : String :=
  "You cannot start model server multiple times."

/-- Assertion message of WaitUntilRunning. -/
def waitAssertMsg : String :=
  "container has not been started."

/-- Model of GetEndpoint: asserts that the endpoint has been created and
returns it. -/
def GetEndpoint (s : RunnerState) : Except PyError String :=
  match s.endpoint with
  | none => Except.error (PyError.assertionError endpointAssertMsg)
  | some e => Except.ok e

/-- Model of Start: asserts no container is held, records the endpoint
from the allocated port, builds run parameters for the TensorFlow
Serving binary kind (local mount when the versioned path exists locally,
base path otherwise), then issues the engine run request and stores the
returned handle.  The returned pair is the state after the call together
with the raised error, if any. -/
def Start (cfg : RunnerConfig) (env : DockerEnv) (s : RunnerState) :
    RunnerState × Option PyError :=
  match s.container with
  | some _ => (s, some (PyError.assertionError startAssertMsg))
  | none =>
    let hostPort := env.availablePort
    let s1 : RunnerState :=
      ⟨s.container, some ("localhost:" ++ toString hostPort), s.dockerClosed⟩
    if env.isTensorFlowServing then
      let runParams :=
        if env.localModelExists then
          DockerRunParams.withHostModelPath hostPort (modelPath cfg)
        else
          DockerRunParams.withModelBasePath hostPort cfg.modelBasePath
      match env.runResult runParams with
      | Except.error _ => (s1, some PyError.dockerError)
      | Except.ok handle => (⟨some handle, s1.endpoint, s1.dockerClosed⟩, none)
    else
      (s1, some PyError.notImplementedError)

/-- Model of WaitUntilRunning: asserts a container is held, then runs
the polling loop against the scripted engine responses. -/
def WaitUntilRunning (s : RunnerState) (deadline now : Rat)
    (script : List PollResponse) : Option WaitTrace :=
  match s.container with
  | none => some ⟨WaitOutcome.assertionFailed, 0, 0⟩
  | some _ => waitLoop deadline now script

/-- Model of Stop: when a container handle is held, issue the engine
stop request — if it raises, the error propagates and the rest of the
body is skipped; otherwise (and also when no handle is held) the docker
client connection is released by close(). -/
def Stop (env : DockerEnv) (s : RunnerState) : RunnerState × Option PyError :=
  match s.container with
  | some _ =>
    if env.stopRaises then
      (s, some PyError.dockerError)
    else
      (⟨s.container, s.endpoint, true⟩, none)
  | none => (⟨s.container, s.endpoint, true⟩, none)

/-- Fixture configuration for concrete runs. -/
def cfg0 : RunnerConfig := ⟨"/base".data, "my_model".data, 3⟩

/-- Fixture environment whose engine run request raises (engine unreachable). -/
def envRunRaises : DockerEnv := ⟨1, true, true, fun _ => Except.error (), false⟩

/-- Fixture environment whose engine requests all succeed. -/
def envOk : DockerEnv := ⟨1, true, true, fun _ => Except.ok ⟨7⟩, false⟩

/-- Fixture environment whose engine stop request raises. -/
def envStopRaises : DockerEnv := ⟨1, true, true, fun _ => Except.ok ⟨7⟩, true⟩

/-- Fixture runner state holding a container handle and an endpoint, as
after a successful Start. -/
def startedState : RunnerState := ⟨some ⟨7⟩, some "localhost:1", false⟩

end LocalDocker

namespace LocalDocker

/-! Helper lemmas about decimal rendering. -/

theorem natToDecimalCore_append (fuel : Nat) :
    ∀ (n : Nat) (acc : List Char),
      natToDecimalCore fuel n acc = natToDecimalCore fuel n [] ++ acc := by
  induction fuel with
  | zero => intro n acc; simp [natToDecimalCore]
  | succ fuel ih =>
    intro n acc
    simp only [natToDecimalCore]
    by_cases h : n < 10
    · simp [h]
    · simp only [h, if_false]
      rw [ih (n / 10) (Char.ofNat (48 + n % 10) :: acc),
        ih (n / 10) [Char.ofNat (48 + n % 10)]]
      simp

theorem digitChar_isAsciiDigit : ∀ r : Nat, r < 10 →
    isAsciiDigit (Char.ofNat (48 + r)) = true := by decide

theorem digitChar_toNat : ∀ r : Nat, r < 10 →
    (Char.ofNat (48 + r)).toNat = 48 + r := by decide

theorem natToDecimalCore_all_digit (fuel : Nat) :
    ∀ (n : Nat), ∀ c ∈ natToDecimalCore fuel n [], isAsciiDigit c = true := by
  induction fuel with
  | zero => intro n c hc; simp [natToDecimalCore] at hc
  | succ fuel ih =>
    intro n c hc
    simp only [natToDecimalCore] at hc
    by_cases h : n < 10
    · simp only [h, if_true] at hc
      rcases List.mem_singleton.mp hc with rfl
      exact digitChar_isAsciiDigit (n % 10) (Nat.mod_lt n (by omega))
    · simp only [h, if_false] at hc
      rw [natToDecimalCore_append] at hc
      rcases List.mem_append.mp hc with hc | hc
      · exact ih (n / 10) c hc
      · rcases List.mem_singleton.mp hc with rfl
        exact digitChar_isAsciiDigit (n % 10) (Nat.mod_lt n (by omega))

theorem natToDecimal_all_digit (n : Nat) :
    ∀ c ∈ natToDecimal n, isAsciiDigit c = true :=
  natToDecimalCore_all_digit (n + 1) n

theorem natToDecimalCore_ne_nil (fuel n : Nat) :
    natToDecimalCore (fuel + 1) n [] ≠ [] := by
  simp only [natToDecimalCore]
  by_cases h : n < 10
  · simp [h]
  · simp only [h, if_false]
    rw [natToDecimalCore_append]
    simp

theorem natToDecimal_ne_nil (n : Nat) : natToDecimal n ≠ [] :=
  natToDecimalCore_ne_nil n n

theorem isdigit_natToDecimal (n : Nat) : isdigit (natToDecimal n) = true := by
  unfold isdigit
  rw [Bool.and_eq_true, List.all_eq_true]
  constructor
  · cases h : natToDecimal n with
    | nil => exact absurd h (natToDecimal_ne_nil n)
    | cons c l => simp
  · intro c hc
    exact natToDecimal_all_digit n c hc

theorem pyInt_append_singleton (l : List Char) (c : Char) :
    pyInt (l ++ [c]) = pyInt l * 10 + (c.toNat - 48) := by
  unfold pyInt
  rw [List.foldl_append]
  rfl

theorem pyInt_natToDecimalCore (fuel : Nat) :
    ∀ n : Nat, n < fuel → pyInt (natToDecimalCore fuel n []) = n := by
  induction fuel with
  | zero => intro n hn; omega
  | succ fuel ih =>
    intro n hn
    simp only [natToDecimalCore]
    by_cases h : n < 10
    · simp only [h, if_true]
      show pyInt [Char.ofNat (48 + n % 10)] = n
      unfold pyInt
      simp only [List.foldl_cons, List.foldl_nil]
      rw [digitChar_toNat (n % 10) (Nat.mod_lt n (by omega))]
      omega
    · simp only [h, if_false]
      rw [natToDecimalCore_append, pyInt_append_singleton,
        ih (n / 10) (by omega),
        digitChar_toNat (n % 10) (Nat.mod_lt n (by omega))]
      omega

theorem pyInt_natToDecimal (n : Nat) : pyInt (natToDecimal n) = n :=
  pyInt_natToDecimalCore (n + 1) n (Nat.lt_succ_self n)

/-! Helper lemmas about splitting and joining paths. -/

theorem isAsciiDigit_notSlash (c : Char) (h : isAsciiDigit c = true) :
    notSlash c = true := by
  simp only [notSlash, decide_eq_true_eq]
  intro hc
  subst hc
  exact absurd h (by decide)

theorem natToDecimal_all_notSlash (n : Nat) :
    (natToDecimal n).all notSlash = true := by
  rw [List.all_eq_true]
  intro c hc
  exact isAsciiDigit_notSlash c (natToDecimal_all_digit n c hc)

theorem takeWhile_all_append (p : Char → Bool) (x : Char) (hx : p x = false) :
    ∀ (l r : List Char), l.all p = true →
      (l ++ x :: r).takeWhile p = l ∧ (l ++ x :: r).dropWhile p = x :: r := by
  intro l
  induction l with
  | nil => intro r _; simp [List.takeWhile_cons, List.dropWhile_cons, hx]
  | cons c l ih =>
    intro r hall
    rw [List.all_cons, Bool.and_eq_true] at hall
    obtain ⟨hc, hl⟩ := hall
    obtain ⟨ht, hd⟩ := ih r hl
    simp [List.takeWhile_cons, List.dropWhile_cons, hc, ht, hd]

theorem osPathSplit_concat (parent seg : List Char)
    (hseg : seg.all notSlash = true)
    (hp : parent ≠ []) (hpl : parent.getLast? ≠ some '/') :
    osPathSplit (parent ++ '/' :: seg) = (parent, seg) := by
  obtain ⟨c, pr, hrev⟩ : ∃ c pr, parent.reverse = c :: pr := by
    cases hq : parent.reverse with
    | nil => exact absurd (by simpa using congrArg List.reverse hq) hp
    | cons c pr => exact ⟨c, pr, rfl⟩
  have hcl : parent.getLast? = some c := by
    rw [← List.head?_reverse, hrev]; rfl
  have hc : c ≠ '/' := fun h => hpl (h ▸ hcl)
  have hslash : notSlash '/' = false := by decide
  obtain ⟨htake, hdrop⟩ := takeWhile_all_append notSlash '/' hslash
    seg.reverse parent.reverse (by rw [List.all_reverse]; exact hseg)
  have hpath : (parent ++ '/' :: seg).reverse = seg.reverse ++ '/' :: parent.reverse := by
    simp
  have hcb : isSlash c = false := by
    simp only [isSlash, decide_eq_false_iff_not]
    exact hc
  rw [hrev] at htake hdrop
  simp only [osPathSplit, hpath, hrev, htake, hdrop]
  have hall : ('/' :: c :: pr).all isSlash = false := by
    simp [List.all_cons, hcb]
  have hsb : isSlash '/' = true := by decide
  have hparent : (c :: pr).reverse = parent := by
    rw [← hrev, List.reverse_reverse]
  simp [hall, hcb, hsb, List.dropWhile_cons, hparent]

theorem joinOne_eq (path b : List Char)
    (hb : b.head? ≠ some '/') (hp : path ≠ []) (hpl : path.getLast? ≠ some '/') :
    joinOne path b = path ++ '/' :: b := by
  unfold joinOne
  rw [if_neg hb, if_neg (not_or.mpr ⟨hp, hpl⟩)]

end LocalDocker

namespace LocalDocker

/-! Claims about servable path resolution. -/

/-- C7: for every path of the form base/name/version with version the
decimal rendering of an integer n >= 0 (base path nonempty without a
trailing slash, model name nonempty without slashes), resolving returns
exactly the components base, name and n, and rejoining the three
components with os.path.join reconstructs the original path. -/
theorem parse_model_path_roundtrip (base name : List Char) (n : Nat)
    (hb : base ≠ []) (hbl : base.getLast? ≠ some '/')
    (hn : name ≠ []) (hns : '/' ∉ name) :
    parse_model_path (base ++ '/' :: name ++ '/' :: natToDecimal n)
      = Except.ok ⟨base, name, n⟩ ∧
    osPathJoin3 base name (natToDecimal n)
      = base ++ '/' :: name ++ '/' :: natToDecimal n := by
  have hnall : name.all notSlash = true := by
    rw [List.all_eq_true]
    intro c hc
    simp only [notSlash, decide_eq_true_eq]
    exact fun h => hns (h ▸ hc)
  have hnl : name.getLast? ≠ some '/' := by
    intro h
    obtain ⟨hne, heq⟩ := List.mem_getLast?_eq_getLast (l := name) (x := '/') h
    exact hns (heq ▸ List.getLast_mem hne)
  have hver := natToDecimal_all_notSlash n
  have hparent1ne : base ++ '/' :: name ≠ [] := by simp
  have hparent1l : (base ++ '/' :: name).getLast? = name.getLast? := by
    rw [show base ++ '/' :: name = (base ++ ['/']) ++ name by simp]
    exact List.getLast?_append_of_ne_nil _ hn
  have hsplit1 : osPathSplit (base ++ '/' :: name ++ '/' :: natToDecimal n)
      = (base ++ '/' :: name, natToDecimal n) := by
    rw [show base ++ '/' :: name ++ '/' :: natToDecimal n
        = (base ++ '/' :: name) ++ '/' :: natToDecimal n by simp]
    exact osPathSplit_concat _ _ hver hparent1ne (by rw [hparent1l]; exact hnl)
  have hsplit2 : osPathSplit (base ++ '/' :: name) = (base, name) :=
    osPathSplit_concat base name hnall hb hbl
  constructor
  · unfold parse_model_path
    rw [hsplit1]
    simp [hsplit2, isdigit_natToDecimal, pyInt_natToDecimal]
  · have hnh : name.head? ≠ some '/' := by
      intro h
      exact hns (List.mem_of_mem_head? h)
    have hvh : (natToDecimal n).head? ≠ some '/' := by
      intro h
      have hd := natToDecimal_all_digit n '/' (List.mem_of_mem_head? h)
      exact absurd hd (by decide)
    unfold osPathJoin3
    rw [joinOne_eq base name hnh hb hbl,
      joinOne_eq _ _ hvh hparent1ne (by rw [hparent1l]; exact hnl)]

/-- Witness for C7 at base "/base", name "my_model", version 3. -/
theorem parse_model_path_roundtrip_witness :
    parse_model_path ("/base".data ++ '/' :: "my_model".data ++ '/' :: natToDecimal 3)
      = Except.ok ⟨"/base".data, "my_model".data, 3⟩ ∧
    osPathJoin3 "/base".data "my_model".data (natToDecimal 3)
      = "/base".data ++ '/' :: "my_model".data ++ '/' :: natToDecimal 3 :=
  parse_model_path_roundtrip "/base".data "my_model".data 3
    (by decide) (by decide) (by decide) (by decide)

/-- C8: resolving any path whose last segment is not a nonempty string
of decimal digits fails with the InvalidServingPath error. -/
theorem parse_model_path_nonnumeric (path : List Char)
    (h : isdigit (osPathSplit path).2 = false) :
    parse_model_path path = Except.error ServingPathError.invalidServingPath := by
  simp [parse_model_path, h]

/-- Witness for C8 at the path /a/b/model/latest. -/
theorem parse_model_path_nonnumeric_witness :
    parse_model_path "/a/b/model/latest".data
      = Except.error ServingPathError.invalidServingPath :=
  parse_model_path_nonnumeric "/a/b/model/latest".data (by decide)

end LocalDocker

namespace LocalDocker

/-! Helper lemmas about the polling loop. -/

theorem waitLoopGo_replicate_created (deadline : Rat) (k : Nat) :
    ∀ (now : Rat) (script : List PollResponse),
      now + (k : Rat) * pollingIntervalSec < deadline →
      waitLoopGo deadline (List.replicate k (PollResponse.status "created") ++ script) now
        = (waitLoopGo deadline script (now + (k : Rat) * pollingIntervalSec)).map
            (fun t => ⟨t.outcome, t.refreshes + k, t.sleeps + k⟩) := by
  induction k with
  | zero =>
    intro now script h
    simp only [Nat.cast_zero, zero_mul, add_zero, List.replicate_zero, List.nil_append]
    cases waitLoopGo deadline script now <;> rfl
  | succ k ih =>
    intro now script h
    have hk : (0 : Rat) ≤ (k : Rat) := Nat.cast_nonneg k
    have hI : pollingIntervalSec = 1 := rfl
    have hlt : now < deadline := by
      rw [hI, mul_one] at h
      push_cast at h
      linarith
    have hrec : now + pollingIntervalSec + (k : Rat) * pollingIntervalSec < deadline := by
      rw [hI, mul_one] at h ⊢
      push_cast at h ⊢
      linarith
    rw [List.replicate_succ, List.cons_append]
    simp only [waitLoopGo, if_pos hlt, eq_self_iff_true, if_true]
    rw [ih (now + pollingIntervalSec) script hrec]
    have harg : now + pollingIntervalSec + (k : Rat) * pollingIntervalSec
        = now + ((k + 1 : Nat) : Rat) * pollingIntervalSec := by
      rw [hI]
      push_cast
      ring
    rw [harg]
    cases waitLoopGo deadline script (now + ((k + 1 : Nat) : Rat) * pollingIntervalSec) with
    | none => rfl
    | some t => simp [Nat.add_assoc]

theorem waitLoopGo_only_created (deadline : Rat) (script : List PollResponse) :
    ∀ (now : Rat) (t : WaitTrace),
      (∀ r ∈ script, r = PollResponse.status "created") →
      waitLoopGo deadline script now = some t →
      t.outcome = WaitOutcome.deadlineExceeded ∧
        deadline ≤ now + (t.sleeps : Rat) * pollingIntervalSec := by
  induction script with
  | nil =>
    intro now t _ h
    simp only [waitLoopGo] at h
    by_cases hlt : now < deadline
    · rw [if_pos hlt] at h
      simp at h
    · rw [if_neg hlt] at h
      obtain rfl : (⟨WaitOutcome.deadlineExceeded, 0, 0⟩ : WaitTrace) = t := by
        injection h
      push_neg at hlt
      refine ⟨rfl, ?_⟩
      simp only [pollingIntervalSec, mul_one, Nat.cast_zero, add_zero]
      linarith
  | cons r rest ih =>
    intro now t hcr h
    have hr : r = PollResponse.status "created" := hcr r (List.mem_cons_self r rest)
    subst hr
    have hrest : ∀ x ∈ rest, x = PollResponse.status "created" :=
      fun x hx => hcr x (List.mem_cons_of_mem _ hx)
    by_cases hlt : now < deadline
    · simp only [waitLoopGo, if_pos hlt, eq_self_iff_true, if_true] at h
      rw [Option.map_eq_some'] at h
      obtain ⟨t', ht', rfl⟩ := h
      obtain ⟨ho, hle⟩ := ih (now + pollingIntervalSec) t' hrest ht'
      refine ⟨ho, ?_⟩
      simp only [pollingIntervalSec, mul_one] at hle ⊢
      push_cast at hle ⊢
      linarith
    · simp only [waitLoopGo, if_neg hlt] at h
      obtain rfl : (⟨WaitOutcome.deadlineExceeded, 0, 0⟩ : WaitTrace) = t := by
        injection h
      push_neg at hlt
      refine ⟨rfl, ?_⟩
      simp only [pollingIntervalSec, mul_one, Nat.cast_zero, add_zero]
      linarith

/-! Claims about WaitUntilRunning. -/

/-- C1: at any poll whose engine response is a NotFound signal or a
status outside created and running, WaitUntilRunning raises JobAborted
immediately: after k preceding created polls it ends with exactly k+1
status refreshes and k sleeps, independently of the rest of the script,
so no further refresh or sleep follows that poll. -/
theorem wait_abort_is_terminal (s : RunnerState) (deadline now : Rat) (k : Nat)
    (r : PollResponse) (tail : List PollResponse)
    (hc : s.container.isSome = true)
    (habort : isAbortResponse r = true)
    (hd : now + (k : Rat) * pollingIntervalSec < deadline) :
    WaitUntilRunning s deadline now
        (List.replicate k (PollResponse.status "created") ++ r :: tail)
      = some ⟨WaitOutcome.jobAborted, k + 1, k⟩ := by
  obtain ⟨hh, hs⟩ := Option.isSome_iff_exists.mp hc
  simp only [WaitUntilRunning, hs, waitLoop]
  rw [waitLoopGo_replicate_created deadline k now (r :: tail) hd]
  cases r with
  | notFound =>
    simp only [waitLoopGo, if_pos hd, Option.map_some']
    simp [Nat.add_comm]
  | status str =>
    simp only [isAbortResponse, Bool.and_eq_true, Bool.not_eq_true',
      decide_eq_false_iff_not] at habort
    obtain ⟨h1, h2⟩ := habort
    simp only [waitLoopGo, if_pos hd, if_neg h1, if_neg h2, Option.map_some']
    simp [Nat.add_comm]

/-- Witness for C1: a first poll reporting exited aborts with one
refresh and no sleep. -/
theorem wait_abort_is_terminal_witness :
    WaitUntilRunning startedState 10 0
        (List.replicate 0 (PollResponse.status "created")
          ++ PollResponse.status "exited" :: [PollResponse.status "running"])
      = some ⟨WaitOutcome.jobAborted, 0 + 1, 0⟩ :=
  wait_abort_is_terminal startedState 10 0 0 (PollResponse.status "exited")
    [PollResponse.status "running"] rfl (by decide) (by simp)

/-- C2: a script of k created reports followed by one running report,
all polled before the deadline, makes WaitUntilRunning return success
after exactly k sleeps of the fixed interval and k+1 status refreshes. -/
theorem wait_created_then_running (s : RunnerState) (deadline now : Rat) (k : Nat)
    (hc : s.container.isSome = true)
    (hd : now + (k : Rat) * pollingIntervalSec < deadline) :
    WaitUntilRunning s deadline now
        (List.replicate k (PollResponse.status "created")
          ++ [PollResponse.status "running"])
      = some ⟨WaitOutcome.success, k + 1, k⟩ := by
  obtain ⟨hh, hs⟩ := Option.isSome_iff_exists.mp hc
  simp only [WaitUntilRunning, hs, waitLoop]
  rw [waitLoopGo_replicate_created deadline k now [PollResponse.status "running"] hd]
  have h1 : ¬ ("running" : String) = "created" := by decide
  simp only [waitLoopGo, if_pos hd, if_neg h1, eq_self_iff_true, if_true,
    Option.map_some']
  simp [Nat.add_comm]

/-- Witness for C2: with no created report, success comes at the first
refresh with zero sleeps. -/
theorem wait_created_then_running_witness :
    WaitUntilRunning startedState 10 0
        (List.replicate 0 (PollResponse.status "created")
          ++ [PollResponse.status "running"])
      = some ⟨WaitOutcome.success, 0 + 1, 0⟩ :=
  wait_created_then_running startedState 10 0 0 rfl (by simp)

/-- C3: when every scripted poll reports created and the call returns a
result, that result is DeadlineExceeded and it is raised at a time at or
after the deadline, never before it. -/
theorem wait_only_created_exceeds_deadline (s : RunnerState) (deadline now : Rat)
    (script : List PollResponse) (t : WaitTrace)
    (hc : s.container.isSome = true)
    (hcr : ∀ r ∈ script, r = PollResponse.status "created")
    (h : WaitUntilRunning s deadline now script = some t) :
    t.outcome = WaitOutcome.deadlineExceeded ∧
      deadline ≤ now + (t.sleeps : Rat) * pollingIntervalSec := by
  obtain ⟨hh, hs⟩ := Option.isSome_iff_exists.mp hc
  simp only [WaitUntilRunning, hs, waitLoop] at h
  exact waitLoopGo_only_created deadline script now t hcr h

/-- Witness for C3: deadline already passed with an exhausted script of
created reports. -/
theorem wait_only_created_exceeds_deadline_witness :
    (⟨WaitOutcome.deadlineExceeded, 0, 0⟩ : WaitTrace).outcome
        = WaitOutcome.deadlineExceeded ∧
      (2 : Rat) ≤ 3 + (((⟨WaitOutcome.deadlineExceeded, 0, 0⟩ : WaitTrace).sleeps : Nat) : Rat)
        * pollingIntervalSec :=
  wait_only_created_exceeds_deadline startedState 2 3 [] ⟨WaitOutcome.deadlineExceeded, 0, 0⟩
    rfl (by simp) rfl

/-- C10: a deadline at or before the current time makes WaitUntilRunning
raise DeadlineExceeded with zero status refreshes and zero sleeps, for
every scripted engine state, including an already running container. -/
theorem wait_past_deadline_no_poll (s : RunnerState) (deadline now : Rat)
    (script : List PollResponse)
    (hc : s.container.isSome = true)
    (hd : deadline ≤ now) :
    WaitUntilRunning s deadline now script
      = some ⟨WaitOutcome.deadlineExceeded, 0, 0⟩ := by
  obtain ⟨hh, hs⟩ := Option.isSome_iff_exists.mp hc
  simp only [WaitUntilRunning, hs, waitLoop]
  have hnlt : ¬ now < deadline := not_lt.mpr hd
  cases script with
  | nil => simp only [waitLoopGo, if_neg hnlt]
  | cons r rest => simp only [waitLoopGo, if_neg hnlt]

/-- Witness for C10: deadline equal to the current time with a running
container reported by the engine. -/
theorem wait_past_deadline_no_poll_witness :
    WaitUntilRunning startedState 2 2 [PollResponse.status "running"]
      = some ⟨WaitOutcome.deadlineExceeded, 0, 0⟩ :=
  wait_past_deadline_no_poll startedState 2 2 [PollResponse.status "running"]
    rfl (by simp)

end LocalDocker

namespace LocalDocker

/-! Claims about the Start, GetEndpoint and Stop lifecycle. -/

/-- Counterexample to C4: when the engine run request raises, Start
stores no container handle, but the endpoint has already been assigned,
so reading the endpoint afterwards succeeds instead of being a
precondition violation. -/
theorem start_failure_readable_endpoint_cex :
    (Start cfg0 envRunRaises initialRunnerState).2 = some PyError.dockerError ∧
    (Start cfg0 envRunRaises initialRunnerState).1.container = none ∧
    GetEndpoint (Start cfg0 envRunRaises initialRunnerState).1
      = Except.ok "localhost:1" :=
  ⟨rfl, rfl, rfl⟩

/-- C4 amended: if Start fails because the engine run request raises, no
container handle is stored (so the no-handle precondition of Start still
holds), but the endpoint was assigned before the run request, so
GetEndpoint afterwards succeeds with the allocated endpoint. -/
theorem start_engine_failure_keeps_endpoint (cfg : RunnerConfig) (env : DockerEnv)
    (s : RunnerState)
    (hnone : s.container = none)
    (htf : env.isTensorFlowServing = true)
    (hrun : ∀ p, env.runResult p = Except.error ()) :
    (Start cfg env s).2 = some PyError.dockerError ∧
    (Start cfg env s).1.container = none ∧
    GetEndpoint (Start cfg env s).1
      = Except.ok ("localhost:" ++ toString env.availablePort) := by
  simp only [Start, hnone, htf, if_true, hrun, GetEndpoint]
  exact ⟨trivial, trivial, trivial⟩

/-- Witness for the amended C4 at the concrete failing environment. -/
theorem start_engine_failure_keeps_endpoint_witness :
    (Start cfg0 envRunRaises initialRunnerState).2 = some PyError.dockerError ∧
    (Start cfg0 envRunRaises initialRunnerState).1.container = none ∧
    GetEndpoint (Start cfg0 envRunRaises initialRunnerState).1
      = Except.ok ("localhost:" ++ toString envRunRaises.availablePort) :=
  start_engine_failure_keeps_endpoint cfg0 envRunRaises initialRunnerState
    rfl rfl (fun _ => rfl)

/-- Counterexample to C5: when the engine stop request raises, Stop
propagates the error and the docker client connection is not released. -/
theorem stop_failure_skips_close_cex :
    (Stop envStopRaises startedState).2 = some PyError.dockerError ∧
    (Stop envStopRaises startedState).1.dockerClosed = false :=
  ⟨rfl, rfl⟩

/-- C5 amended: on a runner holding a container handle, Stop releases
the client connection only when the engine stop request does not raise;
a raising stop request propagates as an error and skips the close()
call, leaving the client connection in its previous state. -/
theorem stop_release_requires_stop_ok (env : DockerEnv) (s : RunnerState)
    (hc : s.container.isSome = true) :
    (env.stopRaises = true →
      Stop env s = (s, some PyError.dockerError)) ∧
    (env.stopRaises = false →
      (Stop env s).1.dockerClosed = true ∧ (Stop env s).2 = none) := by
  obtain ⟨hh, hs⟩ := Option.isSome_iff_exists.mp hc
  constructor
  · intro hr
    simp only [Stop, hs, hr, if_true]
  · intro hr
    simp only [Stop, hs, hr, Bool.false_eq_true, if_false]
    exact ⟨trivial, trivial⟩

/-- Witness for the amended C5: a raising stop request leaves the client
open, a non-raising one closes it. -/
theorem stop_release_requires_stop_ok_witness :
    Stop envStopRaises startedState = (startedState, some PyError.dockerError) ∧
    ((Stop envOk startedState).1.dockerClosed = true ∧
      (Stop envOk startedState).2 = none) :=
  ⟨(stop_release_requires_stop_ok envStopRaises startedState rfl).1 rfl,
    (stop_release_requires_stop_ok envOk startedState rfl).2 rfl⟩

/-- Counterexample to C6: after a completed Stop the container handle is
still held (not nulled), and a subsequent Start fails its precondition
assertion instead of being callable again. -/
theorem stop_keeps_container_cex :
    (Stop envOk startedState).2 = none ∧
    (Stop envOk startedState).1.container = some ⟨7⟩ ∧
    (Start cfg0 envOk (Stop envOk startedState).1).2
      = some (PyError.assertionError startAssertMsg) :=
  ⟨rfl, rfl, rfl⟩

/-- C6 amended: Stop never changes the container handle (it is retained,
not nulled), so after stopping a runner that held a handle, the
no-handle precondition of Start is still violated and a second Start
fails its assertion. -/
theorem stop_retains_container (env : DockerEnv) (s : RunnerState) :
    (Stop env s).1.container = s.container ∧
    (s.container.isSome = true →
      ∀ (cfg : RunnerConfig) (env' : DockerEnv),
        Start cfg env' (Stop env s).1
          = ((Stop env s).1, some (PyError.assertionError startAssertMsg))) := by
  have hcont : (Stop env s).1.container = s.container := by
    cases hs : s.container with
    | none => simp only [Stop, hs]
    | some hh =>
      simp only [Stop, hs]
      by_cases hr : env.stopRaises
      · simp only [hr, if_true, hs]
      · simp only [hr, Bool.false_eq_true, if_false, hs]
  refine ⟨hcont, ?_⟩
  intro hc cfg env'
  obtain ⟨hh, hs⟩ := Option.isSome_iff_exists.mp hc
  have : (Stop env s).1.container = some hh := by rw [hcont, hs]
  simp only [Start, this]

/-- Witness for the amended C6 at the concrete stopped runner. -/
theorem stop_retains_container_witness :
    (Stop envOk startedState).1.container = startedState.container ∧
    Start cfg0 envOk (Stop envOk startedState).1
      = ((Stop envOk startedState).1, some (PyError.assertionError startAssertMsg)) :=
  ⟨(stop_retains_container envOk startedState).1,
    (stop_retains_container envOk startedState).2 rfl cfg0 envOk⟩

/-- Counterexample to C9: after a Start call that failed (so Start has
not completed successfully), GetEndpoint nevertheless succeeds, because
the endpoint was assigned before the failing engine run request. -/
theorem getendpoint_after_failed_start_cex :
    (Start cfg0 envRunRaises initialRunnerState).2 ≠ none ∧
    GetEndpoint (Start cfg0 envRunRaises initialRunnerState).1
      = Except.ok "localhost:1" :=
  ⟨by decide, rfl⟩

/-- C9 amended: GetEndpoint fails its precondition assertion exactly on
the states whose endpoint was never assigned (in particular the freshly
constructed runner, before any Start attempt), and Start fails its
precondition assertion, leaving the state unchanged, exactly on the
states still holding a container handle; under the respective
preconditions neither assertion failure occurs. -/
theorem endpoint_and_start_preconditions (cfg : RunnerConfig) (env : DockerEnv)
    (s : RunnerState) :
    (s.endpoint = none →
      GetEndpoint s = Except.error (PyError.assertionError endpointAssertMsg)) ∧
    (∀ e, s.endpoint = some e → GetEndpoint s = Except.ok e) ∧
    (∀ h, s.container = some h →
      Start cfg env s = (s, some (PyError.assertionError startAssertMsg))) ∧
    (s.container = none →
      (Start cfg env s).2 ≠ some (PyError.assertionError startAssertMsg)) := by
  refine ⟨?_, ?_, ?_, ?_⟩
  · intro he
    simp only [GetEndpoint, he]
  · intro e he
    simp only [GetEndpoint, he]
  · intro h hcont
    simp only [Start, hcont]
  · intro hcont
    simp only [Start, hcont]
    by_cases htf : env.isTensorFlowServing
    · simp only [htf, if_true]
      cases env.runResult (if env.localModelExists then
          DockerRunParams.withHostModelPath env.availablePort (modelPath cfg)
        else
          DockerRunParams.withModelBasePath env.availablePort cfg.modelBasePath) with
      | error e => simp
      | ok handle => simp
    · simp [htf]

/-- Witness for the amended C9: the fresh runner fails the GetEndpoint
assertion, a handle-holding runner fails the Start assertion. -/
theorem endpoint_and_start_preconditions_witness :
    GetEndpoint initialRunnerState
      = Except.error (PyError.assertionError endpointAssertMsg) ∧
    Start cfg0 envOk startedState
      = (startedState, some (PyError.assertionError startAssertMsg)) :=
  ⟨(endpoint_and_start_preconditions cfg0 envOk initialRunnerState).1 rfl,
    (endpoint_and_start_preconditions cfg0 envOk startedState).2.2.1 ⟨7⟩ rfl⟩

end LocalDocker
